import Mathlib

/-!
# Verification of the reolink-ctl VOD pipeline

A shallow embedding, in Lean 4, of the VOD trigger classification, filtering,
ranking, naming and download-orchestration logic of the `reolink-ctl`
repository (`reolink_ctl/vod.py`, `reolink_ctl/commands/download.py`,
`download.py`), together with theorems settling the specification's claims
about it.

Strings are handled through their underlying character lists, so that the
Python `str.split` / indexing operations are mirrored one-to-one; the
`VOD_trigger` flag type of `reolink_aio` is embedded as a record of booleans,
one per bit of the flag enumeration.
-/

namespace ReolinkCtl

/-- Embedding of `reolink_aio.typings.VOD_trigger`: a bitmask over the five
detection kinds.  Each field is one bit of the flag value. -/
structure VOD_trigger where
  person : Bool
  vehicle : Bool
  pet : Bool
  motion : Bool
  timer : Bool
deriving DecidableEq, Repr

namespace VOD_trigger

/-- `VOD_trigger.NONE` — the zero flag value (no bits set). -/
def NONE : VOD_trigger := ⟨false, false, false, false, false⟩

/-- `VOD_trigger.PERSON` bit. -/
def PERSON : VOD_trigger := ⟨true, false, false, false, false⟩

/-- `VOD_trigger.VEHICLE` bit. -/
def VEHICLE : VOD_trigger := ⟨false, true, false, false, false⟩

/-- `VOD_trigger.PET` bit. -/
def PET : VOD_trigger := ⟨false, false, true, false, false⟩

/-- `VOD_trigger.MOTION` bit. -/
def MOTION : VOD_trigger := ⟨false, false, false, true, false⟩

/-- `VOD_trigger.TIMER` bit. -/
def TIMER : VOD_trigger := ⟨false, false, false, false, true⟩

/-- Bitwise OR (`|` on the Python `IntFlag`). -/
def or (a b : VOD_trigger) : VOD_trigger :=
  ⟨a.person || b.person, a.vehicle || b.vehicle, a.pet || b.pet,
   a.motion || b.motion, a.timer || b.timer⟩

/-- Bitwise AND (`&` on the Python `IntFlag`). -/
def and (a b : VOD_trigger) : VOD_trigger :=
  ⟨a.person && b.person, a.vehicle && b.vehicle, a.pet && b.pet,
   a.motion && b.motion, a.timer && b.timer⟩

/-- Python truthiness of an `IntFlag` value: true iff some bit is set. -/
def isTruthy (a : VOD_trigger) : Bool :=
  a.person || a.vehicle || a.pet || a.motion || a.timer

end VOD_trigger

/-- Python's `s.split(sep)` for a one-character separator, on the character
list of the string.  `splitOnChar c []` is `[[]]`, matching
`"".split(sep) == ['']`. -/
def splitOnChar (sep : Char) : List Char → List (List Char)
  | [] => [[]]
  | c :: cs =>
    let rest := splitOnChar sep cs
    if c = sep then [] :: rest
    else
      match rest with
      | [] => [[c]]
      | g :: gs => (c :: g) :: gs

/-- `filename.rsplit("/", 1)[-1]`: the text after the last `/`
(the whole string when no `/` occurs). -/
def afterLastSlash (s : List Char) : List Char :=
  (splitOnChar '/' s).getLastD []

/-- `basename.rsplit(".", 1)[0]`: the text before the last `.`
(the whole string when no `.` occurs). -/
def beforeLastDot (s : List Char) : List Char :=
  let parts := splitOnChar '.' s
  if parts.length ≤ 1 then s
  else List.intercalate ['.'] parts.dropLast

/-- Python `int(c, 16)` on a single character: the value of a hexadecimal
digit, or `none` (a `ValueError`) for any other character. -/
def hexDigitVal (c : Char) : Option Nat :=
  if '0' ≤ c ∧ c ≤ '9' then some (c.toNat - '0'.toNat)
  else if 'a' ≤ c ∧ c ≤ 'f' then some (c.toNat - 'a'.toNat + 10)
  else if 'A' ≤ c ∧ c ≤ 'F' then some (c.toNat - 'A'.toNat + 10)
  else none

/-- `reolink_ctl.vod.parse_triggers_from_filename`, embedded step for step:
strip the directory prefix and extension, split the basename on `_`, require
at least 6 parts, take the second-to-last as the hex flags field, require at
least 7 characters, read hex nibbles at positions 4, 5, 6 and decode the
trigger bits; any structural or hex-parse failure yields `NONE`. -/
def parse_triggers_from_filename (filename : String) : VOD_trigger :=
  let basename := beforeLastDot (afterLastSlash filename.data)
  let parts := splitOnChar '_' basename
  if parts.length < 6 then VOD_trigger.NONE
  else
    let hex_field := parts.getD (parts.length - 2) []
    if hex_field.length < 7 then VOD_trigger.NONE
    else
      match hexDigitVal (hex_field.getD 4 '_'), hexDigitVal (hex_field.getD 5 '_'),
            hexDigitVal (hex_field.getD 6 '_') with
      | some nib_t, some nib_u, some nib_r =>
        let triggers := VOD_trigger.NONE
        let triggers := if nib_t &&& 4 ≠ 0 then triggers.or VOD_trigger.PERSON else triggers
        let triggers := if nib_t &&& 1 ≠ 0 then triggers.or VOD_trigger.VEHICLE else triggers
        let triggers := if nib_u &&& 8 ≠ 0 then triggers.or VOD_trigger.PET else triggers
        let triggers := if nib_u &&& 1 ≠ 0 then triggers.or VOD_trigger.TIMER else triggers
        let triggers := if nib_r &&& 8 ≠ 0 then triggers.or VOD_trigger.MOTION else triggers
        triggers
      | _, _, _ => VOD_trigger.NONE

/-- `reolink_ctl.vod.build_trigger_filter`: build an optional trigger mask
from the five CLI booleans (`None` = no filter). -/
def build_trigger_filter (person vehicle pet motion all_triggers : Bool) :
    Option VOD_trigger :=
  if all_triggers then none
  else
    let trigger := VOD_trigger.NONE
    let trigger := if person then trigger.or VOD_trigger.PERSON else trigger
    let trigger := if vehicle then trigger.or VOD_trigger.VEHICLE else trigger
    let trigger := if pet then trigger.or VOD_trigger.PET else trigger
    let trigger := if motion then trigger.or VOD_trigger.MOTION else trigger
    if trigger ≠ VOD_trigger.NONE then some trigger else none

/-- A calendar timestamp as carried by a VOD recording
(`datetime` fields used by the code: date, time of day). -/
structure DateTime where
  year : Nat
  month : Nat
  day : Nat
  hour : Nat
  minute : Nat
  second : Nat
deriving DecidableEq, Repr

/-- Numeric key realising the comparison order of Python `datetime`
values (lexicographic on the calendar fields, which for in-range field
values coincides with this positional encoding). -/
def DateTime.key (d : DateTime) : Nat :=
  ((((d.year * 100 + d.month) * 100 + d.day) * 100 + d.hour) * 100 + d.minute) * 100
    + d.second

/-- Embedding of the external VOD-file record the code consumes:
`triggers` (the reported trigger set), `file_name` (the camera-side source
path) and the start/end timestamps. -/
structure Recording where
  triggers : VOD_trigger
  file_name : String
  start_time : DateTime
  end_time : DateTime
deriving DecidableEq, Repr

/-- `reolink_ctl.vod.get_vod_triggers`: use the reported triggers, falling
back to the filename parser when they are `NONE`. -/
def get_vod_triggers (vod : Recording) : VOD_trigger :=
  let triggers := vod.triggers
  if triggers = VOD_trigger.NONE then parse_triggers_from_filename vod.file_name
  else triggers

/-- `reolink_ctl.vod.filter_vods`: keep the recordings whose classified
triggers intersect the mask; `none` means no filter. -/
def filter_vods (vods : List Recording) (trigger_filter : Option VOD_trigger) :
    List Recording :=
  match trigger_filter with
  | none => vods
  | some f => vods.filter (fun v => ((get_vod_triggers v).and f).isTruthy)

/-- Descending comparison on recordings by `start_time`, as used by
`sorted(vods, key=lambda v: v.start_time, reverse=True)`. -/
def recDescLe (a b : Recording) : Prop :=
  b.start_time.key ≤ a.start_time.key

instance : DecidableRel recDescLe := fun a b =>
  inferInstanceAs (Decidable (b.start_time.key ≤ a.start_time.key))

/-- Python's stable descending sort by `start_time`
(`sorted(vods, key=..., reverse=True)`), realised as a stable insertion
sort under the reversed comparison. -/
def sortByStartDesc (vods : List Recording) : List Recording :=
  List.insertionSort recDescLe vods

/-- Python's prefix slice `l[:n]` for an arbitrary integer `n`: a negative
`n` counts from the end, clamped at zero. -/
def pySliceTo (l : List Recording) (n : Int) : List Recording :=
  if n < 0 then l.take (l.length + n).toNat else l.take n.toNat

/-- `reolink_ctl.vod.apply_latest`: sort by `start_time` descending and take
the latest `n` (`sorted_vods[:latest]`); `none` returns the input as is. -/
def apply_latest (vods : List Recording) (latest : Option Int) : List Recording :=
  match latest with
  | none => vods
  | some n => pySliceTo (sortByStartDesc vods) n

/-- `reolink_ctl.vod.TRIGGER_NAMES`: the name mapping, in insertion order. -/
def TRIGGER_NAMES : List (VOD_trigger × String) :=
  [(VOD_trigger.PERSON, "person"), (VOD_trigger.VEHICLE, "vehicle"),
   (VOD_trigger.PET, "pet"), (VOD_trigger.MOTION, "motion")]

/-- `reolink_ctl.vod.get_primary_trigger_name`: first entry of
`TRIGGER_NAMES` whose bit is set, else `"recording"`. -/
def get_primary_trigger_name (triggers : VOD_trigger) : String :=
  match TRIGGER_NAMES.find? (fun p => (triggers.and p.1).isTruthy) with
  | some p => p.2
  | none => "recording"

/-- `strftime` zero-padding to two digits (all time-of-day fields of a
Python `datetime` are below 100). -/
def pad2 (n : Nat) : String :=
  if n < 10 then "0" ++ toString n else toString n

/-- `t.strftime("%H%M%S")`. -/
def fmtHMS (t : DateTime) : String :=
  pad2 t.hour ++ pad2 t.minute ++ pad2 t.second

/-- `reolink_ctl.vod.make_output_filename`:
`f"{trigger_name}_{start:%H%M%S}_{end:%H%M%S}.mp4"`. -/
def make_output_filename (vod : Recording) : String :=
  let trigger_name := get_primary_trigger_name (get_vod_triggers vod)
  let start := fmtHMS vod.start_time
  let ends := fmtHMS vod.end_time
  trigger_name ++ "_" ++ start ++ "_" ++ ends ++ ".mp4"

/-- The extraction half of `parse_triggers_from_filename`, factored out to
state claims about well-formed names: the three hex nibble values at
positions 4, 5, 6 of the flags field, or `none` on any structural or
hex-parse failure (the same steps, in the same order, as the source). -/
def extractNibbles (filename : String) : Option (Nat × Nat × Nat) :=
  let basename := beforeLastDot (afterLastSlash filename.data)
  let parts := splitOnChar '_' basename
  if parts.length < 6 then none
  else
    let hex_field := parts.getD (parts.length - 2) []
    if hex_field.length < 7 then none
    else
      match hexDigitVal (hex_field.getD 4 '_'), hexDigitVal (hex_field.getD 5 '_'),
            hexDigitVal (hex_field.getD 6 '_') with
      | some nib_t, some nib_u, some nib_r => some (nib_t, nib_u, nib_r)
      | _, _, _ => none

/-- The specified bit decoding for nibbles `T`, `U`, `R`: `T & 0x4` → PERSON;
`T & 0x1` → VEHICLE; `U & 0x8` → PET; `U & 0x1` → TIMER; `R & 0x8` → MOTION,
combined with OR. -/
def decodeTriggerNibbles (t u r : Nat) : VOD_trigger :=
  ⟨t &&& 4 != 0, t &&& 1 != 0, u &&& 8 != 0, r &&& 8 != 0, u &&& 1 != 0⟩

lemma parse_eq_extract_decode (s : String) :
    parse_triggers_from_filename s =
      match extractNibbles s with
      | some (t, u, r) => decodeTriggerNibbles t u r
      | none => VOD_trigger.NONE := by
  unfold parse_triggers_from_filename extractNibbles
  set parts := splitOnChar '_' (beforeLastDot (afterLastSlash s.data)) with hp
  by_cases h6 : parts.length < 6
  · simp [h6]
  · simp only [h6, if_false]
    set hex_field := parts.getD (parts.length - 2) [] with hh
    by_cases h7 : hex_field.length < 7
    · simp [h7]
    · simp only [h7, if_false]
      rcases ht : hexDigitVal (hex_field.getD 4 '_') with _ | nib_t <;>
        rcases hu : hexDigitVal (hex_field.getD 5 '_') with _ | nib_u <;>
          rcases hr : hexDigitVal (hex_field.getD 6 '_') with _ | nib_r <;>
            simp only []
      by_cases b1 : nib_t &&& 4 ≠ 0 <;> by_cases b2 : nib_t &&& 1 ≠ 0 <;>
        by_cases b3 : nib_u &&& 8 ≠ 0 <;> by_cases b4 : nib_u &&& 1 ≠ 0 <;>
          by_cases b5 : nib_r &&& 8 ≠ 0 <;>
            simp_all [decodeTriggerNibbles, VOD_trigger.or, VOD_trigger.NONE,
              VOD_trigger.PERSON, VOD_trigger.VEHICLE, VOD_trigger.PET,
              VOD_trigger.TIMER, VOD_trigger.MOTION, bne_iff_ne]

/-- Example filenames from the spec's fixtures (new 10-hex layout and
old 7-hex layout). -/
def fnPersonMotion : String :=
  "Mp4Record/2026-02-20/RecM07_20260220_092535_092740_0_6D28C08000_3FECD51.mp4"

def fnMotionOnly : String :=
  "Mp4Record/2026-02-20/RecM07_20260220_092535_092740_0_6D28808000_3FECD51.mp4"

def fnNoTriggers : String :=
  "Mp4Record/2026-02-20/RecM07_20260220_092535_092740_0_6D28800000_3FECD51.mp4"

def fnVehicleOld : String :=
  "Mp4Record/2023-05-15/RecM02_20230515_071811_071835_6D28900_13CE8C7.mp4"

/-- C1: the four fixture filenames decode to exactly PERSON-and-MOTION,
MOTION only, NONE, and VEHICLE only, respectively; and in general every
well-formed name (one whose nibble extraction succeeds with values
`T`, `U`, `R`) decodes to the OR of PERSON for `T & 4`, VEHICLE for `T & 1`,
PET for `U & 8`, TIMER for `U & 1`, MOTION for `R & 8`. -/
theorem claim_C1_trigger_decode :
    (parse_triggers_from_filename fnPersonMotion =
        VOD_trigger.PERSON.or VOD_trigger.MOTION ∧
      parse_triggers_from_filename fnMotionOnly = VOD_trigger.MOTION ∧
      parse_triggers_from_filename fnNoTriggers = VOD_trigger.NONE ∧
      parse_triggers_from_filename fnVehicleOld = VOD_trigger.VEHICLE) ∧
    ∀ s t u r, extractNibbles s = some (t, u, r) →
      parse_triggers_from_filename s = decodeTriggerNibbles t u r := by
  refine ⟨⟨by decide, by decide, by decide, by decide⟩, ?_⟩
  intro s t u r h
  rw [parse_eq_extract_decode, h]

/-- C1 witness: the general decoding law applied to the new-layout
person-and-motion fixture, whose nibble extraction yields `(12, 0, 8)`. -/
theorem claim_C1_trigger_decode_witness :
    extractNibbles fnPersonMotion = some (12, 0, 8) ∧
      parse_triggers_from_filename fnPersonMotion = decodeTriggerNibbles 12 0 8 :=
  ⟨by decide, claim_C1_trigger_decode.2 fnPersonMotion 12 0 8 (by decide)⟩

/-- C5: the filename parser is total and fail-soft — whenever the basename
splits into fewer than 6 `_`-parts, or the flags field is shorter than
7 characters, or any of its characters at positions 4, 5, 6 is not a hex
digit, the result is `NONE` (and no error is raised: the function is total
by construction). -/
theorem claim_C5_fail_soft (s : String) :
    (splitOnChar '_' (beforeLastDot (afterLastSlash s.data))).length < 6 ∨
      ((splitOnChar '_' (beforeLastDot (afterLastSlash s.data))).getD
        ((splitOnChar '_' (beforeLastDot (afterLastSlash s.data))).length - 2)
        []).length < 7 ∨
      hexDigitVal (((splitOnChar '_' (beforeLastDot (afterLastSlash s.data))).getD
        ((splitOnChar '_' (beforeLastDot (afterLastSlash s.data))).length - 2)
        []).getD 4 '_') = none ∨
      hexDigitVal (((splitOnChar '_' (beforeLastDot (afterLastSlash s.data))).getD
        ((splitOnChar '_' (beforeLastDot (afterLastSlash s.data))).length - 2)
        []).getD 5 '_') = none ∨
      hexDigitVal (((splitOnChar '_' (beforeLastDot (afterLastSlash s.data))).getD
        ((splitOnChar '_' (beforeLastDot (afterLastSlash s.data))).length - 2)
        []).getD 6 '_') = none →
    parse_triggers_from_filename s = VOD_trigger.NONE := by
  intro h
  rw [parse_eq_extract_decode]
  suffices hx : extractNibbles s = none by rw [hx]
  unfold extractNibbles
  simp only []
  rcases h with h | h | h | h | h
  · rw [if_pos h]
  · by_cases h6 : (splitOnChar '_' (beforeLastDot (afterLastSlash s.data))).length < 6
    · rw [if_pos h6]
    · rw [if_neg h6, if_pos h]
  all_goals
    by_cases h6 : (splitOnChar '_' (beforeLastDot (afterLastSlash s.data))).length < 6
    · rw [if_pos h6]
    · by_cases h7 : ((splitOnChar '_' (beforeLastDot (afterLastSlash s.data))).getD
        ((splitOnChar '_' (beforeLastDot (afterLastSlash s.data))).length - 2)
        []).length < 7
      · rw [if_neg h6, if_pos h7]
      · rw [if_neg h6, if_neg h7]
        split
        · simp_all
        · rfl

/-- C5 witness: a structurally malformed name (a single part after
stripping) parses to `NONE` through the fail-soft path. -/
theorem claim_C5_fail_soft_witness :
    (splitOnChar '_' (beforeLastDot (afterLastSlash ("abc.mp4" : String).data))).length < 6 ∧
      parse_triggers_from_filename "abc.mp4" = VOD_trigger.NONE :=
  ⟨by decide, claim_C5_fail_soft "abc.mp4" (Or.inl (by decide))⟩

/-- Fixture: a recording reported as PERSON whose filename would decode to
MOTION only — distinguishes reported triggers from the fallback parse. -/
def recPersonReported : Recording :=
  ⟨VOD_trigger.PERSON, fnMotionOnly, ⟨2026, 2, 20, 10, 30, 0⟩, ⟨2026, 2, 20, 10, 45, 0⟩⟩

/-- Fixture: a recording with no reported triggers and an unparseable
filename, so its classification stays `NONE`. -/
def recUnclassified : Recording :=
  ⟨VOD_trigger.NONE, "bad", ⟨2026, 2, 20, 8, 0, 0⟩, ⟨2026, 2, 20, 8, 5, 0⟩⟩

/-- C4: classification precedence — a non-`NONE` reported trigger set is
returned unchanged, ignoring the filename; only a `NONE` report falls back
to the filename parser. -/
theorem claim_C4_precedence (vod : Recording) :
    (vod.triggers ≠ VOD_trigger.NONE → get_vod_triggers vod = vod.triggers) ∧
    (vod.triggers = VOD_trigger.NONE →
      get_vod_triggers vod = parse_triggers_from_filename vod.file_name) := by
  unfold get_vod_triggers
  constructor
  · intro h
    rw [if_neg h]
  · intro h
    rw [if_pos h]

/-- C4 witness: the PERSON-reported fixture keeps its reported value even
though its filename decodes to MOTION. -/
theorem claim_C4_precedence_witness :
    recPersonReported.triggers ≠ VOD_trigger.NONE ∧
      get_vod_triggers recPersonReported = recPersonReported.triggers :=
  ⟨by decide, (claim_C4_precedence recPersonReported).1 (by decide)⟩

/-- C6: the trigger-filter builder returns no filter when `--all` is given
or when no flag is selected, and otherwise exactly the OR of the selected
bits — never the empty set, never containing TIMER. -/
theorem claim_C6_build_filter (person vehicle pet motion all_triggers : Bool) :
    build_trigger_filter person vehicle pet motion all_triggers =
      (if all_triggers then none
       else if person || vehicle || pet || motion then
         some ⟨person, vehicle, pet, motion, false⟩
       else none) ∧
    (build_trigger_filter person vehicle pet motion all_triggers).all
      (fun f => !(f == VOD_trigger.NONE) && !f.timer) = true := by
  cases person <;> cases vehicle <;> cases pet <;> cases motion <;>
    cases all_triggers <;> exact ⟨by decide, by decide⟩

/-- C7: filtering is a pure mask test preserving input order — no filter
returns the list unchanged, a mask keeps exactly the subsequence whose
classified triggers intersect it, and recordings classified `NONE` are
excluded by every specific mask. -/
theorem claim_C7_filter (vods : List Recording) :
    filter_vods vods none = vods ∧
    ∀ f, filter_vods vods (some f) =
        vods.filter (fun v => ((get_vod_triggers v).and f).isTruthy) ∧
      (filter_vods vods (some f)).Sublist vods ∧
      ∀ v ∈ vods, get_vod_triggers v = VOD_trigger.NONE →
        v ∉ filter_vods vods (some f) := by
  refine ⟨rfl, fun f => ⟨rfl, List.filter_sublist vods, ?_⟩⟩
  intro v hv hnone hmem
  have hpred := List.of_mem_filter hmem
  rw [hnone] at hpred
  rcases f with ⟨p, ve, pe, mo, ti⟩
  simp [VOD_trigger.and, VOD_trigger.NONE, VOD_trigger.isTruthy] at hpred

/-- C7 witness: the unclassifiable fixture is a member of its singleton
batch yet excluded by the PERSON mask. -/
theorem claim_C7_filter_witness :
    recUnclassified ∈ [recUnclassified] ∧
      get_vod_triggers recUnclassified = VOD_trigger.NONE ∧
      recUnclassified ∉ filter_vods [recUnclassified] (some VOD_trigger.PERSON) :=
  ⟨by decide, by decide,
    ((claim_C7_filter [recUnclassified]).2 VOD_trigger.PERSON).2.2 recUnclassified
      (by decide) (by decide)⟩

instance : IsTotal Recording recDescLe :=
  ⟨fun a b => Nat.le_total b.start_time.key a.start_time.key⟩

instance : IsTrans Recording recDescLe :=
  ⟨fun _ _ _ h1 h2 => le_trans h2 h1⟩

/-- Fixture: an early-morning recording (08:00). -/
def recEarly : Recording :=
  ⟨VOD_trigger.MOTION, "early", ⟨2026, 2, 20, 8, 0, 0⟩, ⟨2026, 2, 20, 8, 5, 0⟩⟩

/-- Fixture: a midday recording (12:00), later than `recEarly`. -/
def recLate : Recording :=
  ⟨VOD_trigger.PERSON, "late", ⟨2026, 2, 20, 12, 0, 0⟩, ⟨2026, 2, 20, 12, 5, 0⟩⟩

/-- C2 counterexample: for the negative limit `-1` on a two-element batch,
`apply_latest` neither returns an empty sequence nor signals a failure — the
Python slice `[:-1]` keeps everything but the last sorted entry, here the
single most recent recording. -/
theorem claim_C2_counterexample :
    apply_latest [recEarly, recLate] (some (-1)) = [recLate] ∧
      apply_latest [recEarly, recLate] (some (-1)) ≠ [] := by
  constructor <;> decide

/-- C2 (amended): with no limit the input is returned unchanged; with limit
`n ≥ 0` the result is the first `n` entries of the list stably sorted
descending by `start_time`; the function is total, and for negative `n` it
returns the sorted list with its last `min(-n, length)` entries removed
(Python slice semantics) rather than an empty sequence or a failure. -/
theorem claim_C2_rank_and_limit (vods : List Recording) (latest : Option Int) :
    (latest = none → apply_latest vods latest = vods) ∧
    ∀ n, latest = some n →
      (sortByStartDesc vods).Perm vods ∧
      List.Sorted recDescLe (sortByStartDesc vods) ∧
      (0 ≤ n → apply_latest vods latest = (sortByStartDesc vods).take n.toNat) ∧
      (n < 0 → apply_latest vods latest =
        (sortByStartDesc vods).take ((vods.length : Int) + n).toNat) := by
  constructor
  · intro h
    rw [h]
    rfl
  · intro n hn
    subst hn
    refine ⟨List.perm_insertionSort recDescLe vods,
      List.sorted_insertionSort recDescLe vods, ?_, ?_⟩
    · intro h0
      show pySliceTo (sortByStartDesc vods) n = _
      unfold pySliceTo
      rw [if_neg (by omega)]
    · intro hneg
      show pySliceTo (sortByStartDesc vods) n = _
      unfold pySliceTo
      rw [if_pos hneg]
      have hlen : (sortByStartDesc vods).length = vods.length :=
        (List.perm_insertionSort recDescLe vods).length_eq
      rw [hlen]

/-- C2 witness: the amended negative-limit branch evaluated on the concrete
two-recording batch with limit `-1`. -/
theorem claim_C2_rank_and_limit_witness :
    (-1 : Int) < 0 ∧
      apply_latest [recEarly, recLate] (some (-1)) =
        (sortByStartDesc [recEarly, recLate]).take
          ((((2 : Nat) : Int) + (-1)).toNat) :=
  ⟨by decide,
    ((claim_C2_rank_and_limit [recEarly, recLate] (some (-1))).2 (-1) rfl).2.2.2
      (by decide)⟩

lemma get_primary_trigger_name_eq (t : VOD_trigger) :
    get_primary_trigger_name t =
      if t.person then "person"
      else if t.vehicle then "vehicle"
      else if t.pet then "pet"
      else if t.motion then "motion"
      else "recording" := by
  rcases t with ⟨p, v, pe, mo, ti⟩
  cases p <;> cases v <;> cases pe <;> cases mo <;> cases ti <;> rfl

/-- C8: the output name is exactly primary-trigger name, underscore,
zero-padded start HHMMSS, underscore, zero-padded end HHMMSS, `.mp4`, the
primary being the first set bit in the fixed order PERSON, VEHICLE, PET,
MOTION of the classified triggers, or `"recording"` when none is set; the
PERSON fixture spanning 10:30:00–10:45:00 yields exactly
`person_103000_104500.mp4`. -/
theorem claim_C8_output_name (vod : Recording) :
    make_output_filename vod =
      (if (get_vod_triggers vod).person then "person"
       else if (get_vod_triggers vod).vehicle then "vehicle"
       else if (get_vod_triggers vod).pet then "pet"
       else if (get_vod_triggers vod).motion then "motion"
       else "recording") ++ "_" ++
        (pad2 vod.start_time.hour ++ pad2 vod.start_time.minute ++
          pad2 vod.start_time.second) ++ "_" ++
        (pad2 vod.end_time.hour ++ pad2 vod.end_time.minute ++
          pad2 vod.end_time.second) ++ ".mp4" ∧
    make_output_filename recPersonReported = "person_103000_104500.mp4" := by
  constructor
  · unfold make_output_filename fmtHMS
    rw [get_primary_trigger_name_eq]
  · decide

/-- A local filesystem restricted to files: full path → contents
(byte list), `none` when no file exists at the path. -/
def FS : Type := String → Option (List Nat)

/-- Point update of the filesystem (create/overwrite for `some`,
`unlink` for `none`). -/
def FS.set (fs : FS) (p : String) (v : Option (List Nat)) : FS :=
  fun q => if q = p then v else fs q

/-- The empty filesystem. -/
def FS.empty : FS := fun _ => none

lemma FS.set_same (fs : FS) (p : String) (v : Option (List Nat)) :
    (fs.set p v) p = v := by
  simp [FS.set]

lemma FS.set_other (fs : FS) {p q : String} (h : q ≠ p) (v : Option (List Nat)) :
    (fs.set p v) q = fs q := by
  simp [FS.set, h]

lemma FS.set_self (fs : FS) (p : String) : fs.set p (fs p) = fs := by
  funext q
  by_cases h : q = p
  · rw [h, FS.set_same]
  · rw [FS.set_other fs h]

/-- `strftime("%Y")` zero-pads the year to four digits. -/
def pad4 (n : Nat) : String :=
  if n < 10 then "000" ++ toString n
  else if n < 100 then "00" ++ toString n
  else if n < 1000 then "0" ++ toString n
  else toString n

/-- `t.strftime("%Y-%m-%d")` — the per-date subdirectory name. -/
def fmtDate (d : DateTime) : String :=
  pad4 d.year ++ "-" ++ pad2 d.month ++ "-" ++ pad2 d.day

/-- The destination path
`output_dir / start_time date directory / derived filename`. -/
def destPath (output_dir : String) (vod : Recording) : String :=
  output_dir ++ "/" ++ fmtDate vod.start_time ++ "/" ++ make_output_filename vod

/-- Behaviour of `host.download_vod` plus the chunked stream read for one
recording: either the request itself raises, or it yields a stream whose
successfully delivered chunks are `chunks`, followed — when `fails` is
true — by an exception during the chunked read. -/
inductive DLResult where
  | requestError : DLResult
  | stream (chunks : List (List Nat)) (fails : Bool) : DLResult

/-- The mutable state of the download loop: the filesystem and the
`downloaded` / `failed` counters. -/
structure DLState where
  fs : FS
  downloaded : Nat
  failed : Nat

/-- Sequential `f.write(chunk)` of each delivered chunk onto the
destination file. -/
def writeChunks (dest : String) : FS → List (List Nat) → FS
  | fs, [] => fs
  | fs, c :: cs => writeChunks dest (fs.set dest (some ((fs dest).getD [] ++ c))) cs

/-- One iteration of the non-dry-run download loop of
`reolink_ctl/commands/download.py::_run` (identically `download.py::run`):
skip and count `downloaded` when the destination exists; otherwise request
the stream, create the file (`open(dest_path, "wb")`), append the chunks as
they arrive, and either count `downloaded` on completion or, on any
exception, delete the partial file if present and count `failed`. -/
def processOne (host : Recording → DLResult) (output_dir : String)
    (st : DLState) (vod : Recording) : DLState :=
  let dest_path := destPath output_dir vod
  match st.fs dest_path with
  | some _ => { st with downloaded := st.downloaded + 1 }
  | none =>
    match host vod with
    | .requestError => { st with failed := st.failed + 1 }
    | .stream chunks fails =>
      let opened := st.fs.set dest_path (some [])
      let written := writeChunks dest_path opened chunks
      if fails then
        { st with fs := written.set dest_path none, failed := st.failed + 1 }
      else
        { st with fs := written, downloaded := st.downloaded + 1 }

/-- The whole non-dry-run download loop over the selected recordings. -/
def runLoop (host : Recording → DLResult) (output_dir : String)
    (st : DLState) (vods : List Recording) : DLState :=
  vods.foldl (processOne host output_dir) st

/-- The net effect of one loop iteration on the contents at the destination
path: an existing file survives untouched; otherwise a failed request or a
failed read leaves nothing, and a completed stream leaves the concatenation
of its chunks. -/
def dlEffect (cur : Option (List Nat)) : DLResult → Option (List Nat)
  | .requestError => cur
  | .stream chunks fails =>
    match cur with
    | some c => some c
    | none => if fails then none else some chunks.flatten

lemma dlEffect_requestError (cur : Option (List Nat)) :
    dlEffect cur .requestError = cur := rfl

lemma dlEffect_some (c : List Nat) (res : DLResult) :
    dlEffect (some c) res = some c := by
  cases res <;> rfl

lemma dlEffect_idem (cur : Option (List Nat)) (res : DLResult) :
    dlEffect (dlEffect cur res) res = dlEffect cur res := by
  rcases res with _ | ⟨chunks, fails⟩
  · rfl
  · rcases cur with _ | c
    · cases fails <;> rfl
    · rfl

lemma writeChunks_other (dest : String) (fs : FS) (cs : List (List Nat))
    {q : String} (h : q ≠ dest) : (writeChunks dest fs cs) q = fs q := by
  induction cs generalizing fs with
  | nil => rfl
  | cons c cs ih =>
    rw [writeChunks, ih, FS.set_other fs h]

lemma writeChunks_same (dest : String) (fs : FS) (cs : List (List Nat))
    (acc : List Nat) (hacc : fs dest = some acc) :
    (writeChunks dest fs cs) dest = some (acc ++ cs.flatten) := by
  induction cs generalizing fs acc with
  | nil =>
    rw [writeChunks, hacc]
    simp
  | cons c cs ih =>
    rw [writeChunks]
    have hstep : (fs.set dest (some ((fs dest).getD [] ++ c))) dest = some (acc ++ c) := by
      rw [FS.set_same, hacc]
      rfl
    rw [ih _ _ hstep]
    simp

lemma processOne_fs (host : Recording → DLResult) (dir : String) (st : DLState)
    (vod : Recording) :
    (processOne host dir st vod).fs =
      st.fs.set (destPath dir vod)
        (dlEffect (st.fs (destPath dir vod)) (host vod)) := by
  unfold processOne
  simp only []
  rcases hcur : st.fs (destPath dir vod) with _ | c
  · rcases hres : host vod with _ | ⟨chunks, fails⟩
    · simp only [dlEffect]
      rw [← hcur, FS.set_self]
    · cases fails
      · simp only [dlEffect, if_neg (by simp : ¬False), Bool.false_eq_true, if_false]
        funext q
        by_cases hq : q = destPath dir vod
        · subst hq
          rw [FS.set_same,
            writeChunks_same _ _ _ [] (FS.set_same st.fs _ _)]
          simp
        · rw [FS.set_other _ hq, writeChunks_other _ _ _ hq, FS.set_other _ hq]
      · simp only [dlEffect, if_true]
        funext q
        by_cases hq : q = destPath dir vod
        · subst hq
          rw [FS.set_same, FS.set_same]
        · rw [FS.set_other _ hq, FS.set_other _ hq, writeChunks_other _ _ _ hq,
            FS.set_other _ hq]
  · simp only [hcur]
    rw [dlEffect_some, ← hcur, FS.set_self]

lemma processOne_counts (host : Recording → DLResult) (dir : String) (st : DLState)
    (vod : Recording) :
    (processOne host dir st vod).downloaded =
      st.downloaded +
        (if (dlEffect (st.fs (destPath dir vod)) (host vod)).isSome then 1 else 0) ∧
    (processOne host dir st vod).failed =
      st.failed +
        (if (dlEffect (st.fs (destPath dir vod)) (host vod)).isSome then 0 else 1) := by
  unfold processOne
  simp only []
  rcases hcur : st.fs (destPath dir vod) with _ | c
  · rcases hres : host vod with _ | ⟨chunks, fails⟩
    · simp [dlEffect]
    · cases fails <;> simp [dlEffect]
  · rw [dlEffect_some]
    simp

lemma runLoop_cons (host : Recording → DLResult) (dir : String) (st : DLState)
    (w : Recording) (ws : List Recording) :
    runLoop host dir st (w :: ws) = runLoop host dir (processOne host dir st w) ws := rfl

lemma runLoop_fs_other (host : Recording → DLResult) (dir : String)
    (vods : List Recording) (st : DLState) (p : String)
    (h : ∀ v ∈ vods, p ≠ destPath dir v) :
    (runLoop host dir st vods).fs p = st.fs p := by
  induction vods generalizing st with
  | nil => rfl
  | cons w ws ih =>
    rw [runLoop_cons, ih _ (fun v hv => h v (List.mem_cons_of_mem w hv)),
      processOne_fs, FS.set_other _ (h w (List.mem_cons_self w ws))]

lemma runLoop_fs_dest (host : Recording → DLResult) (dir : String)
    (vods : List Recording) (st : DLState)
    (hnd : (vods.map (destPath dir)).Nodup) :
    ∀ v ∈ vods, (runLoop host dir st vods).fs (destPath dir v) =
      dlEffect (st.fs (destPath dir v)) (host v) := by
  induction vods generalizing st with
  | nil =>
    intro v hv
    cases hv
  | cons w ws ih =>
    have hw : destPath dir w ∉ ws.map (destPath dir) := by
      rw [List.map_cons] at hnd
      exact (List.nodup_cons.mp hnd).1
    have hnd' : (ws.map (destPath dir)).Nodup := by
      rw [List.map_cons] at hnd
      exact (List.nodup_cons.mp hnd).2
    intro v hv
    rcases List.mem_cons.mp hv with hv | hv
    · subst hv
      rw [runLoop_cons,
        runLoop_fs_other host dir ws _ _
          (fun u hu hne => hw (by rw [hne]; exact List.mem_map_of_mem (destPath dir) hu)),
        processOne_fs, FS.set_same]
    · have hne : destPath dir v ≠ destPath dir w := by
        intro hne
        exact hw (hne ▸ List.mem_map_of_mem (destPath dir) hv)
      rw [runLoop_cons, ih _ hnd' v hv, processOne_fs, FS.set_other _ hne]

lemma runLoop_counts (host : Recording → DLResult) (dir : String)
    (vods : List Recording) (st : DLState)
    (hnd : (vods.map (destPath dir)).Nodup) :
    (runLoop host dir st vods).downloaded =
      st.downloaded + vods.countP
        (fun v => (dlEffect (st.fs (destPath dir v)) (host v)).isSome) ∧
    (runLoop host dir st vods).failed =
      st.failed + vods.countP
        (fun v => !(dlEffect (st.fs (destPath dir v)) (host v)).isSome) := by
  induction vods generalizing st with
  | nil => simp [runLoop]
  | cons w ws ih =>
    have hw : destPath dir w ∉ ws.map (destPath dir) := by
      rw [List.map_cons] at hnd
      exact (List.nodup_cons.mp hnd).1
    have hnd' : (ws.map (destPath dir)).Nodup := by
      rw [List.map_cons] at hnd
      exact (List.nodup_cons.mp hnd).2
    have hfs : ∀ v ∈ ws, (processOne host dir st w).fs (destPath dir v) =
        st.fs (destPath dir v) := by
      intro v hv
      have hne : destPath dir v ≠ destPath dir w := by
        intro hne
        exact hw (hne ▸ List.mem_map_of_mem (destPath dir) hv)
      rw [processOne_fs, FS.set_other _ hne]
    obtain ⟨ihd, ihf⟩ := ih (processOne host dir st w) hnd'
    obtain ⟨hd, hf⟩ := processOne_counts host dir st w
    rw [runLoop_cons]
    constructor
    · rw [ihd, hd, List.countP_cons,
        List.countP_congr (fun v hv => by rw [hfs v hv])]
      by_cases hso : (dlEffect (st.fs (destPath dir w)) (host w)).isSome = true <;>
        simp [hso] <;> omega
    · rw [ihf, hf, List.countP_cons,
        List.countP_congr (fun v hv => by rw [hfs v hv])]
      by_cases hso : (dlEffect (st.fs (destPath dir w)) (host w)).isSome = true <;>
        simp [hso] <;> omega

lemma runLoop_fixpoint_fs (host : Recording → DLResult) (dir : String)
    (vods : List Recording) (st : DLState)
    (hfix : ∀ v ∈ vods, st.fs (destPath dir v) =
      dlEffect (st.fs (destPath dir v)) (host v)) :
    (runLoop host dir st vods).fs = st.fs := by
  induction vods generalizing st with
  | nil => rfl
  | cons w ws ih =>
    have hstep : (processOne host dir st w).fs = st.fs := by
      rw [processOne_fs, ← hfix w (List.mem_cons_self w ws), FS.set_self]
    rw [runLoop_cons, ih _ ?_, hstep]
    intro v hv
    rw [hstep]
    exact hfix v (List.mem_cons_of_mem w hv)

/-- Fixture camera behaviour: every request yields a stream that delivers
three bytes and then fails mid-read. -/
def hostAlwaysFails : Recording → DLResult :=
  fun _ => .stream [[1, 2, 3]] true

/-- C3: per-recording failure isolation and cleanup — when the destination
did not exist and the stream read fails after some chunks were written, the
iteration leaves no file at the destination path, increments `failed` by
exactly one, leaves `downloaded` unchanged, and the loop still processes
every remaining recording of the batch after the failed one. -/
theorem claim_C3_partial_failure (host : Recording → DLResult) (dir : String)
    (st : DLState) (vod : Recording) (chunks : List (List Nat))
    (hnone : st.fs (destPath dir vod) = none)
    (hfail : host vod = .stream chunks true) :
    ((processOne host dir st vod).fs (destPath dir vod) = none ∧
      (processOne host dir st vod).failed = st.failed + 1 ∧
      (processOne host dir st vod).downloaded = st.downloaded) ∧
    ∀ (init : DLState) (pre post : List Recording),
      runLoop host dir init (pre ++ vod :: post) =
        runLoop host dir
          (processOne host dir (runLoop host dir init pre) vod) post := by
  constructor
  · obtain ⟨hd, hf⟩ := processOne_counts host dir st vod
    rw [processOne_fs, FS.set_same, hnone, hfail]
    refine ⟨rfl, ?_, ?_⟩
    · rw [hf, hnone, hfail]
      rfl
    · rw [hd, hnone, hfail]
      rfl
  · intro init pre post
    unfold runLoop
    rw [List.foldl_append]
    rfl

/-- C3 witness: the failing-stream host on an empty filesystem, with one
recording before and one after the failing one in the batch. -/
theorem claim_C3_partial_failure_witness :
    FS.empty (destPath "out" recEarly) = none ∧
      hostAlwaysFails recEarly = .stream [[1, 2, 3]] true ∧
      ((processOne hostAlwaysFails "out" ⟨FS.empty, 0, 0⟩ recEarly).fs
          (destPath "out" recEarly) = none ∧
        (processOne hostAlwaysFails "out" ⟨FS.empty, 0, 0⟩ recEarly).failed = 0 + 1 ∧
        (processOne hostAlwaysFails "out" ⟨FS.empty, 0, 0⟩ recEarly).downloaded = 0) ∧
      runLoop hostAlwaysFails "out" ⟨FS.empty, 0, 0⟩ ([recLate] ++ recEarly :: [recLate]) =
        runLoop hostAlwaysFails "out"
          (processOne hostAlwaysFails "out"
            (runLoop hostAlwaysFails "out" ⟨FS.empty, 0, 0⟩ [recLate]) recEarly)
          [recLate] :=
  ⟨rfl, rfl,
    (claim_C3_partial_failure hostAlwaysFails "out" ⟨FS.empty, 0, 0⟩ recEarly
      [[1, 2, 3]] rfl rfl).1,
    (claim_C3_partial_failure hostAlwaysFails "out" ⟨FS.empty, 0, 0⟩ recEarly
      [[1, 2, 3]] rfl rfl).2 ⟨FS.empty, 0, 0⟩ [recLate] [recLate]⟩

/-- C9: skip-if-exists idempotence — when the destination exists the
iteration consults nothing from the camera (any two hosts give the same
result), changes no file, and counts the recording as downloaded; and a
second full run of the loop over the same recordings (with distinct
destination paths) and the filesystem produced by the first run leaves the
file set unchanged and reports the same `downloaded` and `failed` counts. -/
theorem claim_C9_idempotence (host : Recording → DLResult) (dir : String)
    (fs0 : FS) (vods : List Recording)
    (hnd : (vods.map (destPath dir)).Nodup) :
    (∀ (host' : Recording → DLResult) (st : DLState) (vod : Recording),
      st.fs (destPath dir vod) ≠ none →
        processOne host dir st vod = processOne host' dir st vod ∧
        (processOne host dir st vod).fs = st.fs ∧
        (processOne host dir st vod).downloaded = st.downloaded + 1 ∧
        (processOne host dir st vod).failed = st.failed) ∧
    ((runLoop host dir ⟨(runLoop host dir ⟨fs0, 0, 0⟩ vods).fs, 0, 0⟩ vods).fs =
        (runLoop host dir ⟨fs0, 0, 0⟩ vods).fs ∧
      (runLoop host dir ⟨(runLoop host dir ⟨fs0, 0, 0⟩ vods).fs, 0, 0⟩ vods).downloaded =
        (runLoop host dir ⟨fs0, 0, 0⟩ vods).downloaded ∧
      (runLoop host dir ⟨(runLoop host dir ⟨fs0, 0, 0⟩ vods).fs, 0, 0⟩ vods).failed =
        (runLoop host dir ⟨fs0, 0, 0⟩ vods).failed) := by
  constructor
  · intro host' st vod hex
    rcases hcur : st.fs (destPath dir vod) with _ | c
    · exact absurd hcur hex
    · unfold processOne
      simp [hcur]
  · have hdest1 := runLoop_fs_dest host dir vods ⟨fs0, 0, 0⟩ hnd
    have hfix : ∀ v ∈ vods,
        (runLoop host dir ⟨fs0, 0, 0⟩ vods).fs (destPath dir v) =
          dlEffect ((runLoop host dir ⟨fs0, 0, 0⟩ vods).fs (destPath dir v)) (host v) := by
      intro v hv
      rw [hdest1 v hv, dlEffect_idem]
    refine ⟨runLoop_fixpoint_fs host dir vods _ hfix, ?_, ?_⟩
    · obtain ⟨h2, _⟩ := runLoop_counts host dir vods
        ⟨(runLoop host dir ⟨fs0, 0, 0⟩ vods).fs, 0, 0⟩ hnd
      obtain ⟨h1, _⟩ := runLoop_counts host dir vods ⟨fs0, 0, 0⟩ hnd
      rw [h2, h1,
        List.countP_congr (fun v hv => by rw [hdest1 v hv, dlEffect_idem])]
    · obtain ⟨_, h2⟩ := runLoop_counts host dir vods
        ⟨(runLoop host dir ⟨fs0, 0, 0⟩ vods).fs, 0, 0⟩ hnd
      obtain ⟨_, h1⟩ := runLoop_counts host dir vods ⟨fs0, 0, 0⟩ hnd
      rw [h2, h1,
        List.countP_congr (fun v hv => by rw [hdest1 v hv, dlEffect_idem])]

/-- C9 witness: the second-run invariance on a concrete two-recording batch
with distinct destination paths, under the always-failing host. -/
theorem claim_C9_idempotence_witness :
    ([recEarly, recLate].map (destPath "out")).Nodup ∧
      (runLoop hostAlwaysFails "out"
          ⟨(runLoop hostAlwaysFails "out" ⟨FS.empty, 0, 0⟩ [recEarly, recLate]).fs, 0, 0⟩
          [recEarly, recLate]).downloaded =
        (runLoop hostAlwaysFails "out" ⟨FS.empty, 0, 0⟩ [recEarly, recLate]).downloaded :=
  ⟨by decide,
    (claim_C9_idempotence hostAlwaysFails "out" FS.empty [recEarly, recLate]
      (by decide)).2.2.1⟩

lemma processOne_sum (host : Recording → DLResult) (dir : String) (st : DLState)
    (vod : Recording) :
    (processOne host dir st vod).downloaded + (processOne host dir st vod).failed =
      st.downloaded + st.failed + 1 ∧
    st.downloaded ≤ (processOne host dir st vod).downloaded ∧
    st.failed ≤ (processOne host dir st vod).failed := by
  obtain ⟨hd, hf⟩ := processOne_counts host dir st vod
  by_cases hso : (dlEffect (st.fs (destPath dir vod)) (host vod)).isSome = true <;>
    rw [hd, hf] <;> simp [hso] <;> omega

lemma runLoop_sum (host : Recording → DLResult) (dir : String)
    (vods : List Recording) (st : DLState) :
    (runLoop host dir st vods).downloaded + (runLoop host dir st vods).failed =
      st.downloaded + st.failed + vods.length ∧
    st.downloaded ≤ (runLoop host dir st vods).downloaded ∧
    st.failed ≤ (runLoop host dir st vods).failed := by
  induction vods generalizing st with
  | nil => simp [runLoop]
  | cons w ws ih =>
    obtain ⟨hsum, hmd, hmf⟩ := processOne_sum host dir st w
    obtain ⟨ihsum, ihmd, ihmf⟩ := ih (processOne host dir st w)
    rw [runLoop_cons]
    refine ⟨by rw [ihsum, hsum]; simp only [List.length_cons]; omega,
      le_trans hmd ihmd, le_trans hmf ihmf⟩

/-- C10: tally completeness — each loop iteration increments exactly one of
the two counters by one (and never decrements either), so a full non-dry-run
execution over the selected recordings ends with
`downloaded + failed = number of recordings`, and along every prefix of the
batch both counters are non-decreasing. -/
theorem claim_C10_tally (host : Recording → DLResult) (dir : String)
    (vods : List Recording) (fs0 : FS) :
    ((runLoop host dir ⟨fs0, 0, 0⟩ vods).downloaded +
        (runLoop host dir ⟨fs0, 0, 0⟩ vods).failed = vods.length) ∧
    (∀ (st : DLState) (vod : Recording),
      (processOne host dir st vod).downloaded + (processOne host dir st vod).failed =
        st.downloaded + st.failed + 1 ∧
      st.downloaded ≤ (processOne host dir st vod).downloaded ∧
      st.failed ≤ (processOne host dir st vod).failed) ∧
    (∀ pre post, vods = pre ++ post →
      (runLoop host dir ⟨fs0, 0, 0⟩ pre).downloaded ≤
        (runLoop host dir ⟨fs0, 0, 0⟩ vods).downloaded ∧
      (runLoop host dir ⟨fs0, 0, 0⟩ pre).failed ≤
        (runLoop host dir ⟨fs0, 0, 0⟩ vods).failed) := by
  refine ⟨?_, fun st vod => processOne_sum host dir st vod, ?_⟩
  · have := (runLoop_sum host dir vods ⟨fs0, 0, 0⟩).1
    simpa using this
  · intro pre post hsplit
    subst hsplit
    have happ : runLoop host dir ⟨fs0, 0, 0⟩ (pre ++ post) =
        runLoop host dir (runLoop host dir ⟨fs0, 0, 0⟩ pre) post := by
      unfold runLoop
      rw [List.foldl_append]
    rw [happ]
    exact ⟨(runLoop_sum host dir post _).2.1, (runLoop_sum host dir post _).2.2⟩

/-- C10 witness: the tally decomposition applied to the concrete
two-recording batch split after its first element. -/
theorem claim_C10_tally_witness :
    ([recEarly, recLate] : List Recording) = [recEarly] ++ [recLate] ∧
      (runLoop hostAlwaysFails "out" ⟨FS.empty, 0, 0⟩ [recEarly]).downloaded ≤
        (runLoop hostAlwaysFails "out" ⟨FS.empty, 0, 0⟩ [recEarly, recLate]).downloaded ∧
      (runLoop hostAlwaysFails "out" ⟨FS.empty, 0, 0⟩ [recEarly]).failed ≤
        (runLoop hostAlwaysFails "out" ⟨FS.empty, 0, 0⟩ [recEarly, recLate]).failed :=
  ⟨rfl, (claim_C10_tally hostAlwaysFails "out" [recEarly, recLate] FS.empty).2.2
    [recEarly] [recLate] rfl⟩

end ReolinkCtl
